import Mathlib

/-!
# TransVid-DL.AI-SubGen — verification of the job pipeline specification

This development shallowly embeds the program in Lean 4 and proves the
specified properties about it.

Two groups of definitions appear below.

* Definitions taken directly from `app.py` (the consumer / UI layer):
  `_process_video`, `_handle_command` and the command listener
  `_setup_command_listener` are embedded as pure functions producing the
  trace of observable actions the Python code performs, in the order the
  code performs them.  Log-only calls are omitted from traces, since no
  claim mentions them.

* Definitions modelled from the spec: the JobRunner, the CommandChannel
  publication discipline and the two TranslationBackend variants live in
  `video_processor.py`, which is not part of the sources given; those
  components are modelled faithfully from the specification text (each
  such definition carries a doc comment saying so).
-/

namespace SubGen

/-! ## Terminal commands (CommandChannel message schema, spec section 6) -/

/-- A terminal lifecycle command, the tagged union
`Done{video_folder} | Cancelled | Error{message}` of the spec. -/
inductive TerminalCommand where
  | processing_done (video_folder : String)
  | processing_cancelled
  | error (message : String)
deriving DecidableEq, Repr

/-! ## JobRunner, modelled from the spec -/

/-- The pipeline stages other than the batched translation loop. -/
inductive Stage where
  | downloading
  | extractingAudio
  | transcribing
  | assembling
deriving DecidableEq, Repr

/-- One unit of work guarded by a cancellation check: a pipeline stage or
one translation batch (the spec requires a token check between stages and
between translation batches). -/
inductive Step where
  | stage (s : Stage)
  | translateBatch (i : Nat)
deriving DecidableEq, Repr

/-- Modelled from the spec: the environment one JobRunner execution runs
in — the outcome of each step if it is run, the number of translation
batches, the output folder of a successful run, and the point (counted in
cancellation checks) at which the write-once CancellationToken becomes
set, `none` meaning it is never set. -/
structure JobEnv where
  numBatches : Nat
  stepResult : Step → Except String Unit
  cancelAt : Option Nat
  outputFolder : String

/-- Whether the (write-once, monotone) CancellationToken reads as set at
the `k`-th cancellation check. -/
def JobEnv.tokenSet (env : JobEnv) (k : Nat) : Bool :=
  match env.cancelAt with
  | none => false
  | some t => decide (t ≤ k)

/-- Modelled from the spec: the ordered step sequence of a job with `n`
translation batches: download → extract-audio → transcribe → translate
(batched) → assemble. -/
def jobSteps (n : Nat) : List Step :=
  [Step.stage Stage.downloading, Step.stage Stage.extractingAudio,
   Step.stage Stage.transcribing]
    ++ (List.range n).map Step.translateBatch
    ++ [Step.stage Stage.assembling]

/-- An observable action of the JobRunner: running a step, cleaning up
temporary files, or publishing a terminal command on the CommandChannel. -/
inductive RunnerAction where
  | runStep (s : Step)
  | cleanup
  | publish (c : TerminalCommand)
deriving DecidableEq, Repr

/-- `true` exactly on `publish` actions. -/
def RunnerAction.isPublish : RunnerAction → Bool
  | .publish _ => true
  | _ => false

/-- `true` exactly on publications of a `processing_done` command. -/
def RunnerAction.isDonePublish : RunnerAction → Bool
  | .publish (.processing_done _) => true
  | _ => false

/-- Modelled from the spec (JobRunner contract, section 4.2): run the
remaining steps, checking the CancellationToken before every step; a set
token stops the run, cleans up and publishes `Cancelled`; a failing step
cleans up and publishes `Error`; exhausting the steps publishes `Done`.
`k` counts the cancellation checks performed so far. -/
def runSteps (env : JobEnv) : List Step → Nat → List RunnerAction
  | [], _ => [RunnerAction.publish (TerminalCommand.processing_done env.outputFolder)]
  | st :: rest, k =>
    if env.tokenSet k then
      [RunnerAction.cleanup, RunnerAction.publish TerminalCommand.processing_cancelled]
    else
      match env.stepResult st with
      | Except.ok _ => RunnerAction.runStep st :: runSteps env rest (k + 1)
      | Except.error m =>
          [RunnerAction.runStep st, RunnerAction.cleanup,
           RunnerAction.publish (TerminalCommand.error m)]

/-- Modelled from the spec: one full JobRunner execution,
`run(job, cancellationToken) -> TerminalCommand`, as its action trace. -/
def runJob (env : JobEnv) : List RunnerAction :=
  runSteps env (jobSteps env.numBatches) 0

/-! ## SubtitleDocument and the TranslationBackend variants -/

/-- One timestamped subtitle entry (spec section 3); `start` and `end`
are durations, represented in milliseconds. -/
structure SubtitleEntry where
  index : Nat
  start : Nat
  «end» : Nat
  text : String
deriving DecidableEq, Repr

/-- Modelled from the spec: the NeuralMT backend sends the texts, batched,
to a machine-translation service (`tr` is the per-text translation the
service applies); transient failures are retried, and exhausting the
retry budget surfaces a `TranslationError`.  `failures` is the number of
consecutive transient failures the service produces, `maxRetries` the
retry budget. -/
def neuralMTTranslate (tr : String → String) (failures maxRetries : Nat)
    (texts : List String) : Except String (List String) :=
  if failures ≤ maxRetries then
    Except.ok (texts.map tr)
  else
    Except.error "TranslationError: retries exhausted"

/-- Modelled from the spec: the ChatCompletion backend builds a prompt
from the batch and parses the completion (`respond`) back into entries; a
response whose entry count mismatches the request is a backend error,
never silently truncated or padded. -/
def chatCompletionTranslate (respond : List String → List String)
    (texts : List String) : Except String (List String) :=
  let out := respond texts
  if out.length = texts.length then
    Except.ok out
  else
    Except.error "TranslationError: mismatched entry count"

/-- Modelled from the spec: the Translating stage invokes the selected
backend on the document's text payload only and writes the translated
texts back, preserving `index`, `start` and `end` of every entry. -/
def translateDocument (backend : List String → Except String (List String))
    (doc : List SubtitleEntry) : Except String (List SubtitleEntry) :=
  match backend (doc.map (fun e => e.text)) with
  | Except.error e => Except.error e
  | Except.ok newTexts =>
      Except.ok (List.zipWith (fun e t => { e with text := t }) doc newTexts)

/-! ## The consumer (`app.py`) -/

/-- The process-wide configuration object (`utils.config`) as read and
written by `app.py`: API keys, selected Whisper model, and the CUDA
availability probe `is_cuda_available()` (read-only capability). -/
structure Config where
  deepl_key : String
  openai_key : String
  whisper_model : String
  cudaAvailable : Bool
deriving DecidableEq, Repr

/-- The UI fields `SRTTranslatorApp._process_video` reads: the url entry,
the two API key entries, the language / service / Whisper-model
comboboxes and the GPU checkbox variable. -/
structure UIState where
  url_entry : String
  deepl_key_entry : String
  openai_key_entry : String
  language_combobox : String
  service_combobox : String
  whisper_model_combobox : String
  gpu_var : Bool
deriving DecidableEq, Repr

/-- Why `_process_video` showed its input warning. -/
inductive WarningReason where
  | missingSource
  | missingLanguage
deriving DecidableEq, Repr

/-- An observable action of the consumer while handling the
start-processing request (`_process_video` in `app.py`), in program
order.  Log-only calls are omitted. -/
inductive AppAction where
  | setConfigKeys (deepl openai : String)
  | saveApiKeys
  | setWhisperModel (m : String)
  | saveConfig
  | updateApiClient
  | showWarning (r : WarningReason)
  | openProgressWindow
  | processVideo (url : Option String) (path : Option String)
      (target_language : String) (translation_service : String) (use_gpu : Bool)
deriving DecidableEq, Repr

/-- `true` exactly on `processVideo` actions. -/
def AppAction.isProcessVideo : AppAction → Bool
  | .processVideo _ _ _ _ _ => true
  | _ => false

/-- `true` exactly on `openProgressWindow`. -/
def AppAction.isOpenProgress : AppAction → Bool
  | .openProgressWindow => true
  | _ => false

/-- `true` exactly on `showWarning` actions. -/
def AppAction.isShowWarning : AppAction → Bool
  | .showWarning _ => true
  | _ => false

/-- Python truthiness of the optional `video_path` argument: `None` and
the empty string are falsy. -/
def truthy : Option String → Bool
  | none => false
  | some s => !(s = "")

/-- Python `s.split(' - ')[0]` restricted to the head element: the prefix
of `cs` up to (excluding) the first occurrence of `sep`. -/
def pySplitHead (sep : List Char) : List Char → List Char
  | [] => []
  | c :: cs => if sep.isPrefixOf (c :: cs) then [] else c :: pySplitHead sep cs

/-- `self.language_combobox.get().split(' - ')[0]` from `app.py`. -/
def firstField (s : String) : String :=
  String.mk (pySplitHead (" - ".data) s.data)

/-- The embedding of `SRTTranslatorApp._process_video(video_path)`
(`app.py` lines 524–567) as the list of observable actions it performs,
in program order: write the entered API keys into the config and persist
them, persist the selected Whisper model when one is selected, call
`update_api_client` on the processor, then validate the inputs (source
present, target language non-empty); on a validation failure show a
warning and stop, otherwise open the progress window and start the job
via `process_video`, preferring the local path over the URL field.
`setupActions` is the unconditional prefix of that trace (`app.py` lines
524–543): store and persist the keys and model, then refresh the API
client. -/
def setupActions (ui : UIState) : List AppAction :=
  [AppAction.setConfigKeys ui.deepl_key_entry ui.openai_key_entry,
   AppAction.saveApiKeys]
    ++ (if ui.whisper_model_combobox = "" then []
        else [AppAction.setWhisperModel ui.whisper_model_combobox,
              AppAction.saveConfig])
    ++ [AppAction.updateApiClient]

/-- The full `_process_video` action trace; see the comment on
`setupActions` above.  The Python code computes `target_language` between
the two validation checks; the computation is pure, so the trace is
unchanged by reading it where it is first needed. -/
def processVideoHandler (ui : UIState) (cfg : Config)
    (video_path : Option String) : List AppAction :=
  let url := ui.url_entry
  let use_gpu := ui.gpu_var && cfg.cudaAvailable
  if url = "" ∧ truthy video_path = false then
    setupActions ui ++ [AppAction.showWarning WarningReason.missingSource]
  else
    let target_language := firstField ui.language_combobox
    if target_language = "" then
      setupActions ui ++ [AppAction.showWarning WarningReason.missingLanguage]
    else
      setupActions ui ++ [AppAction.openProgressWindow]
        ++ (if truthy video_path then
              [AppAction.processVideo none video_path target_language
                ui.service_combobox use_gpu]
            else
              [AppAction.processVideo (some url) none target_language
                ui.service_combobox use_gpu])

/-- The processor-visible state the consumer actions act on: the
process-wide config and the processor's snapshot of it.  The effect of
`update_api_client` (re-snapshotting credentials and model configuration
from the current config) is modelled from the spec, its implementation
being in `video_processor.py`. -/
structure ProcState where
  cfg : Config
  snapshot : Config
deriving DecidableEq, Repr

/-- The state effect of one consumer action. -/
def applyAction (st : ProcState) : AppAction → ProcState
  | AppAction.setConfigKeys d o =>
      { st with cfg := { st.cfg with deepl_key := d, openai_key := o } }
  | AppAction.setWhisperModel m =>
      { st with cfg := { st.cfg with whisper_model := m } }
  | AppAction.updateApiClient => { st with snapshot := st.cfg }
  | _ => st

/-- Replay a consumer action trace over the processor-visible state. -/
def replay (st : ProcState) (l : List AppAction) : ProcState :=
  l.foldl applyAction st

/-! ## Command handling and the command listener (`app.py`) -/

/-- A message on the command queue as `_handle_command` sees it: the
`command` tag and the optional payload fields of the schema. -/
structure Cmd where
  command : String
  video_folder : Option String
  message : Option String
deriving DecidableEq, Repr

/-- `true` exactly on the three terminal tags of the message schema. -/
def isTerminalTag (s : String) : Bool :=
  s = "processing_done" || s = "processing_cancelled" || s = "error"

/-- A user-visible effect of the consumer's command handlers. -/
inductive UIEffect where
  | closeProgress
  | showResultDialog (folder : Option String)
  | showCancelledInfo
  | showErrorBox (msg : Option String)
deriving DecidableEq, Repr

/-- `true` exactly on `showResultDialog` (the Done display). -/
def UIEffect.isShowResult : UIEffect → Bool
  | .showResultDialog _ => true
  | _ => false

/-- `true` exactly on `showCancelledInfo`. -/
def UIEffect.isShowCancelled : UIEffect → Bool
  | .showCancelledInfo => true
  | _ => false

/-- `true` exactly on `showErrorBox`. -/
def UIEffect.isShowError : UIEffect → Bool
  | .showErrorBox _ => true
  | _ => false

/-- The embedding of `SRTTranslatorApp._handle_command` (`app.py` lines
513–522) together with the bodies of the three handlers it dispatches to
(`_handle_processing_done`, `_handle_processing_cancelled`,
`_handle_processing_error`, each of which first closes the progress
window): the user-visible effects of handling one command. -/
def handleCommand (cmd : Cmd) : List UIEffect :=
  if cmd.command = "processing_done" then
    [UIEffect.closeProgress, UIEffect.showResultDialog cmd.video_folder]
  else if cmd.command = "processing_cancelled" then
    [UIEffect.closeProgress, UIEffect.showCancelledInfo]
  else if cmd.command = "error" then
    [UIEffect.closeProgress, UIEffect.showErrorBox cmd.message]
  else
    []

/-- The effects of the consumer handling a sequence of commands in
order. -/
def consumerRun (cmds : List Cmd) : List UIEffect :=
  (cmds.map handleCommand).flatten

/-- The consumer-side state of the command listener: the commands still
pending on the queue and the user-visible effects produced so far. -/
structure ListenerState where
  pending : List Cmd
  effects : List UIEffect
deriving DecidableEq, Repr

/-- The embedding of one execution of `check_commands` inside
`_setup_command_listener` (`app.py` lines 496–511): a non-blocking
`get_nowait` poll; an empty queue changes nothing and reschedules after
100 ms; a command whose handler raises (`raises`) is caught, logged, and
the loop is rescheduled after 1000 ms; otherwise the command's effects
are appended and the loop is rescheduled after 100 ms.  The returned
number is the rescheduling delay passed to `root.after`. -/
def checkCommands (raises : Cmd → Bool) : ListenerState → ListenerState × Nat
  | { pending := [], effects := effs } => ({ pending := [], effects := effs }, 100)
  | { pending := c :: rest, effects := effs } =>
      if raises c then
        ({ pending := rest, effects := effs }, 1000)
      else
        ({ pending := rest, effects := effs ++ handleCommand c }, 100)

/-- `n` consecutive executions of `check_commands`. -/
def pollMany (raises : Cmd → Bool) (st : ListenerState) : Nat → ListenerState
  | 0 => st
  | n + 1 => pollMany raises (checkCommands raises st).1 n

/-! ## Concrete inputs used to exercise the definitions -/

/-- A one-entry subtitle document. -/
def entry0 : SubtitleEntry :=
  { index := 1, start := 0, «end» := 1000, text := "Hello" }

/-- A job whose every step succeeds and whose CancellationToken becomes
set at the second cancellation check. -/
def envCancel : JobEnv :=
  { numBatches := 2, stepResult := fun _ => Except.ok (),
    cancelAt := some 1, outputFolder := "output/video_1" }

/-- A configuration with no CUDA accelerator available. -/
def cfg0 : Config :=
  { deepl_key := "dk", openai_key := "ok", whisper_model := "base",
    cudaAvailable := false }

/-- UI fields with a URL typed in (what the URL entry holds when a local
file was also picked: the entry then shows the file name, a non-empty
string). -/
def uiBoth : UIState :=
  { url_entry := "https://host/video.mp4", deepl_key_entry := "d1",
    openai_key_entry := "o1", language_combobox := "FR - French",
    service_combobox := "DeepL", whisper_model_combobox := "base",
    gpu_var := true }

/-- UI fields with an empty URL entry. -/
def uiEmpty : UIState :=
  { url_entry := "", deepl_key_entry := "d1", openai_key_entry := "o1",
    language_combobox := "FR - French", service_combobox := "ChatGPT",
    whisper_model_combobox := "base", gpu_var := false }

/-- A `processing_done` command. -/
def cmdDone : Cmd :=
  { command := "processing_done", video_folder := some "output/video_1",
    message := none }

/-- A command with an unrecognized tag. -/
def cmdOther : Cmd :=
  { command := "progress", video_folder := none, message := none }

/-! ## Helper lemmas -/

/-- Every run of the JobRunner is a publish-free prefix followed by a
single final publication. -/
theorem runSteps_shape (env : JobEnv) (l : List Step) (k : Nat) :
    ∃ pre c, runSteps env l k = pre ++ [RunnerAction.publish c] ∧
      ∀ a ∈ pre, a.isPublish = false := by
  induction l generalizing k with
  | nil =>
      exact ⟨[], TerminalCommand.processing_done env.outputFolder, rfl, by simp⟩
  | cons st rest ih =>
      rw [runSteps]
      split
      · exact ⟨[RunnerAction.cleanup], TerminalCommand.processing_cancelled, rfl,
          by simp [RunnerAction.isPublish]⟩
      · cases h : env.stepResult st with
        | ok _ =>
            obtain ⟨pre, c, heq, hpre⟩ := ih (k + 1)
            refine ⟨RunnerAction.runStep st :: pre, c, by simp [heq], ?_⟩
            intro a ha
            rcases List.mem_cons.mp ha with h1 | h1
            · subst h1; rfl
            · exact hpre a h1
        | error m =>
            exact ⟨[RunnerAction.runStep st, RunnerAction.cleanup],
              TerminalCommand.error m, rfl, by simp [RunnerAction.isPublish]⟩

/-- If the token becomes set at check `t`, the run is still before check
`t`, and every step scheduled before that check succeeds, the run ends
with cleanup followed by publishing `Cancelled`. -/
theorem runSteps_cancelled (env : JobEnv) (l : List Step) (k t : Nat)
    (hset : env.cancelAt = some t) (hk : k ≤ t) (hlt : t < k + l.length)
    (hok : ∀ i (hi : i < l.length), k + i < t →
      env.stepResult (l.get ⟨i, hi⟩) = Except.ok ()) :
    ∃ pre, runSteps env l k =
      pre ++ [RunnerAction.cleanup,
              RunnerAction.publish TerminalCommand.processing_cancelled] := by
  induction l generalizing k with
  | nil => simp at hlt; omega
  | cons st rest ih =>
      rw [runSteps]
      split
      · exact ⟨[], rfl⟩
      · rename_i hts
        have hkt : k < t := by
          simp [JobEnv.tokenSet, hset] at hts
          omega
        have h0 : env.stepResult st = Except.ok () := by
          have := hok 0 (by simp) (by omega)
          simpa using this
        rw [h0]
        obtain ⟨pre, heq⟩ := ih (k + 1) (by omega) (by simp at hlt ⊢; omega)
          (fun i hi hik => by
            have := hok (i + 1) (by simp; omega) (by omega)
            simpa using this)
        exact ⟨RunnerAction.runStep st :: pre, by simp [heq]⟩

/-- If the token becomes set at a check the run has not yet reached, the
run can never publish `Done`, whatever the step outcomes. -/
theorem runSteps_no_done (env : JobEnv) (l : List Step) (k t : Nat)
    (hset : env.cancelAt = some t) (hk : k ≤ t) (hlt : t < k + l.length) :
    ∀ f, RunnerAction.publish (TerminalCommand.processing_done f) ∉
      runSteps env l k := by
  induction l generalizing k with
  | nil => simp at hlt; omega
  | cons st rest ih =>
      intro f
      rw [runSteps]
      split
      · simp
      · rename_i hts
        have hkt : k < t := by
          simp [JobEnv.tokenSet, hset] at hts
          omega
        cases h : env.stepResult st with
        | ok _ =>
            intro hmem
            rcases List.mem_cons.mp hmem with h1 | h1
            · exact absurd h1 (by simp)
            · exact ih (k + 1) (by omega) (by simp at hlt ⊢; omega) f h1
        | error m => simp

/-- The two backends preserve the entry count of any request they answer
successfully. -/
theorem backend_length (tr : String → String) (failures maxRetries : Nat)
    (respond : List String → List String)
    (backend : List String → Except String (List String))
    (hb : backend = neuralMTTranslate tr failures maxRetries ∨
          backend = chatCompletionTranslate respond)
    (texts out : List String) (h : backend texts = Except.ok out) :
    out.length = texts.length := by
  rcases hb with hb | hb <;> subst hb
  · rw [neuralMTTranslate] at h
    split at h
    · cases h
      simp
    · cases h
  · rw [chatCompletionTranslate] at h
    split at h
    · rename_i hlen
      cases h
      exact hlen
    · cases h

/-- The unconditional setup prefix contains no job start, no progress
window and no warning. -/
theorem mem_setupActions (ui : UIState) (a : AppAction)
    (h : a ∈ setupActions ui) :
    a.isProcessVideo = false ∧ a.isOpenProgress = false ∧
    a.isShowWarning = false := by
  by_cases hw : ui.whisper_model_combobox = ""
  · simp [setupActions, hw] at h
    rcases h with rfl | rfl | rfl <;> exact ⟨rfl, rfl, rfl⟩
  · simp [setupActions, hw] at h
    rcases h with rfl | rfl | rfl | rfl | rfl <;> exact ⟨rfl, rfl, rfl⟩

/-- The setup prefix counts no `processVideo` action. -/
theorem setupActions_countP_processVideo (ui : UIState) :
    (setupActions ui).countP AppAction.isProcessVideo = 0 :=
  List.countP_eq_zero.mpr (fun a ha => by simp [(mem_setupActions ui a ha).1])

/-- The setup prefix counts no `openProgressWindow` action. -/
theorem setupActions_countP_openProgress (ui : UIState) :
    (setupActions ui).countP AppAction.isOpenProgress = 0 :=
  List.countP_eq_zero.mpr (fun a ha => by simp [(mem_setupActions ui a ha).2.1])

/-- The setup prefix counts no `showWarning` action. -/
theorem setupActions_countP_showWarning (ui : UIState) :
    (setupActions ui).countP AppAction.isShowWarning = 0 :=
  List.countP_eq_zero.mpr (fun a ha => by simp [(mem_setupActions ui a ha).2.2])

/-- The `_process_video` trace always starts with the setup prefix. -/
theorem handler_setup_prefix (ui : UIState) (cfg : Config)
    (vp : Option String) :
    ∃ rest, processVideoHandler ui cfg vp = setupActions ui ++ rest := by
  by_cases hc1 : ui.url_entry = "" ∧ truthy vp = false
  · exact ⟨_, by simp only [processVideoHandler]; rw [if_pos hc1]⟩
  · by_cases hc2 : firstField ui.language_combobox = ""
    · exact ⟨_, by simp only [processVideoHandler]; rw [if_neg hc1, if_pos hc2]⟩
    · exact ⟨_, by
        simp only [processVideoHandler]
        rw [if_neg hc1, if_neg hc2, List.append_assoc]⟩

/-- Characterization of any `processVideo` action occurring in the
`_process_video` trace: it occurs only after validation passed, the GPU
flag is the conjunction of the checkbox and the CUDA probe, the language
and service come from the comboboxes, and the source arguments follow the
local-path-over-URL rule. -/
theorem processVideo_mem_spec (ui : UIState) (cfg : Config)
    (vp : Option String) (u p : Option String) (l s : String) (g : Bool)
    (h : AppAction.processVideo u p l s g ∈ processVideoHandler ui cfg vp) :
    g = (ui.gpu_var && cfg.cudaAvailable) ∧
    l = firstField ui.language_combobox ∧
    s = ui.service_combobox ∧
    (if truthy vp then u = none ∧ p = vp
     else u = some ui.url_entry ∧ ui.url_entry ≠ "" ∧ p = none) := by
  simp only [processVideoHandler] at h
  by_cases hc1 : ui.url_entry = "" ∧ truthy vp = false
  · rw [if_pos hc1] at h
    rcases List.mem_append.mp h with hA | hA
    · exact absurd (mem_setupActions ui _ hA).1 (by simp [AppAction.isProcessVideo])
    · simp at hA
  · rw [if_neg hc1] at h
    by_cases hc2 : firstField ui.language_combobox = ""
    · rw [if_pos hc2] at h
      rcases List.mem_append.mp h with hA | hA
      · exact absurd (mem_setupActions ui _ hA).1 (by simp [AppAction.isProcessVideo])
      · simp at hA
    · rw [if_neg hc2, List.append_assoc] at h
      rcases List.mem_append.mp h with hA | hA
      · exact absurd (mem_setupActions ui _ hA).1 (by simp [AppAction.isProcessVideo])
      · rcases List.mem_append.mp hA with hB | hB
        · simp at hB
        · cases hv : truthy vp with
          | true =>
              rw [hv] at hB
              simp at hB
              obtain ⟨hu, hp, hl, hs, hg⟩ := hB
              exact ⟨hg, hl, hs, by simp [hv, hu, hp]⟩
          | false =>
              rw [hv] at hB
              simp at hB
              obtain ⟨hu, hp, hl, hs, hg⟩ := hB
              have hurl : ¬(ui.url_entry = "") := fun he => hc1 ⟨he, hv⟩
              exact ⟨hg, hl, hs, by simp [hv, hu, hp, hurl]⟩

/-- Unknown command tags dispatch no handler. -/
theorem handleCommand_of_not_terminal (cmd : Cmd)
    (h : isTerminalTag cmd.command = false) : handleCommand cmd = [] := by
  rw [isTerminalTag] at h
  rw [handleCommand]
  simp only [Bool.or_eq_false_iff, decide_eq_false_iff_not] at h
  rw [if_neg h.1.1, if_neg h.1.2, if_neg h.2]

/-- A Done display arises only from a `processing_done` command. -/
theorem showResult_tag (cmd : Cmd) (e : UIEffect)
    (he : e ∈ handleCommand cmd) (hr : e.isShowResult = true) :
    cmd.command = "processing_done" := by
  rw [handleCommand] at he
  split at he
  · assumption
  · split at he
    · rcases List.mem_cons.mp he with h1 | h1
      · subst h1; cases hr
      · simp at h1
        subst h1; cases hr
    · split at he
      · rcases List.mem_cons.mp he with h1 | h1
        · subst h1; cases hr
        · simp at h1
          subst h1; cases hr
      · cases he

/-- Handling a command stream one command at a time. -/
theorem consumerRun_cons (c : Cmd) (rest : List Cmd) :
    consumerRun (c :: rest) = handleCommand c ++ consumerRun rest := rfl

/-- A stream without terminal tags produces no user-visible effects. -/
theorem consumerRun_eq_nil (cmds : List Cmd)
    (h : cmds.countP (fun c => isTerminalTag c.command) = 0) :
    consumerRun cmds = [] := by
  induction cmds with
  | nil => rfl
  | cons c rest ih =>
      by_cases hb : isTerminalTag c.command
      · rw [List.countP_cons_of_pos _ _ (by simpa using hb)] at h
        exact absurd h (Nat.succ_ne_zero _)
      · have hc : isTerminalTag c.command = false := by simpa using hb
        rw [List.countP_cons_of_neg _ _ (by simp [hc])] at h
        rw [consumerRun_cons, handleCommand_of_not_terminal c hc, ih h]
        rfl

/-- Under the channel contract (at most one terminal command per job), a
stream that displays a Done outcome displays no Cancelled or Error
outcome at all — in particular never before the Done display. -/
theorem consumerRun_done_excludes (cmds : List Cmd)
    (h : cmds.countP (fun c => isTerminalTag c.command) ≤ 1)
    (hr : (consumerRun cmds).any UIEffect.isShowResult = true) :
    (consumerRun cmds).all
      (fun e => !(e.isShowCancelled || e.isShowError)) = true := by
  induction cmds with
  | nil => simp [consumerRun] at hr
  | cons c rest ih =>
      rw [consumerRun_cons] at hr ⊢
      by_cases hc : isTerminalTag c.command
      · rw [List.countP_cons_of_pos _ _ (by simpa using hc)] at h
        have h0 : rest.countP (fun c => isTerminalTag c.command) = 0 := by
          omega
        have hnil := consumerRun_eq_nil rest h0
        rw [hnil] at hr ⊢
        have htags : c.command = "processing_done" ∨
            c.command = "processing_cancelled" ∨ c.command = "error" := by
          rw [isTerminalTag] at hc
          simp at hc
          tauto
        rcases htags with ht | ht | ht
        · simp [handleCommand, ht, UIEffect.isShowCancelled, UIEffect.isShowError]
        · rw [List.append_nil] at hr
          simp [handleCommand, ht, UIEffect.isShowResult] at hr
        · rw [List.append_nil] at hr
          simp [handleCommand, ht, UIEffect.isShowResult] at hr
      · have hc' : isTerminalTag c.command = false := by simpa using hc
        rw [List.countP_cons_of_neg _ _ (by simp [hc'])] at h
        rw [handleCommand_of_not_terminal c hc'] at hr ⊢
        simp only [List.nil_append] at hr ⊢
        exact ih h hr

/-- Draining the queue: after as many polls as there are pending
commands, the queue is empty and exactly the non-raising commands have
contributed their effects, in order. -/
theorem pollMany_drain (raises : Cmd → Bool) (l : List Cmd)
    (effs : List UIEffect) :
    pollMany raises { pending := l, effects := effs } l.length =
      { pending := [],
        effects := effs ++ consumerRun (l.filter (fun c => !raises c)) } := by
  induction l generalizing effs with
  | nil => simp [pollMany, consumerRun]
  | cons c rest ih =>
      rw [List.length_cons, pollMany]
      by_cases hr : raises c
      · rw [show (checkCommands raises
            { pending := c :: rest, effects := effs }).1 =
            { pending := rest, effects := effs } from by
          simp [checkCommands, hr]]
        rw [ih effs]
        simp [List.filter_cons, hr]
      · rw [show (checkCommands raises
            { pending := c :: rest, effects := effs }).1 =
            { pending := rest, effects := effs ++ handleCommand c } from by
          simp [checkCommands, hr]]
        rw [ih (effs ++ handleCommand c)]
        simp [List.filter_cons, hr, consumerRun_cons, List.append_assoc]

/-! ## The claims -/

/-- C1: for every started job, exactly one terminal command is published
on the CommandChannel over the whole job lifetime — never zero and never
more than one — and publishing it is the last action the JobRunner
performs for the job. -/
theorem c1_exactly_one_terminal_publication (env : JobEnv) :
    (runJob env).countP RunnerAction.isPublish = 1 ∧
    ∃ c, (runJob env).getLast? = some (RunnerAction.publish c) := by
  obtain ⟨pre, c, heq, hpre⟩ := runSteps_shape env (jobSteps env.numBatches) 0
  rw [runJob, heq]
  refine ⟨?_, ⟨c, ?_⟩⟩
  · rw [List.countP_append]
    have h0 : pre.countP RunnerAction.isPublish = 0 :=
      List.countP_eq_zero.mpr (by intro a ha; simp [hpre a ha])
    simp [h0, RunnerAction.isPublish]
  · simp

/-- C2: translating a SubtitleDocument with either TranslationBackend
(NeuralMT or ChatCompletion) yields a document with the same number of
entries in the same order, and every entry keeps the `index`, `start` and
`end` of the original entry at the same position; only `text` may
change. -/
theorem c2_translation_preserves_structure
    (tr : String → String) (failures maxRetries : Nat)
    (respond : List String → List String)
    (backend : List String → Except String (List String))
    (hb : backend = neuralMTTranslate tr failures maxRetries ∨
          backend = chatCompletionTranslate respond)
    (doc out : List SubtitleEntry)
    (h : translateDocument backend doc = Except.ok out) :
    out.length = doc.length ∧
    ∀ i (hi : i < out.length) (hd : i < doc.length),
      (out.get ⟨i, hi⟩).index = (doc.get ⟨i, hd⟩).index ∧
      (out.get ⟨i, hi⟩).start = (doc.get ⟨i, hd⟩).start ∧
      (out.get ⟨i, hi⟩).«end» = (doc.get ⟨i, hd⟩).«end» := by
  rw [translateDocument] at h
  cases hres : backend (doc.map (fun e => e.text)) with
  | error e => rw [hres] at h; cases h
  | ok newTexts =>
      rw [hres] at h
      cases h
      have hlen : newTexts.length = doc.length := by
        have := backend_length tr failures maxRetries respond backend hb _ _ hres
        simpa using this
      constructor
      · simp [List.length_zipWith, hlen]
      · intro i hi hd
        simp [List.get_eq_getElem, List.getElem_zipWith]

/-- Witness for C2 at a concrete one-entry document and the
ChatCompletion backend with an identity completion service. -/
theorem c2_translation_preserves_structure_witness :
    (chatCompletionTranslate (fun l => l) =
        neuralMTTranslate (fun s => s) 0 0 ∨
      chatCompletionTranslate (fun l => l) =
        chatCompletionTranslate (fun l => l)) ∧
    translateDocument (chatCompletionTranslate (fun l => l)) [entry0] =
      Except.ok [entry0] ∧
    ([entry0].length = [entry0].length ∧
      ∀ i (hi : i < [entry0].length) (hd : i < [entry0].length),
        ([entry0].get ⟨i, hi⟩).index = ([entry0].get ⟨i, hd⟩).index ∧
        ([entry0].get ⟨i, hi⟩).start = ([entry0].get ⟨i, hd⟩).start ∧
        ([entry0].get ⟨i, hi⟩).«end» = ([entry0].get ⟨i, hd⟩).«end») :=
  ⟨Or.inr rfl, rfl,
    c2_translation_preserves_structure (fun s => s) 0 0 (fun l => l)
      (chatCompletionTranslate (fun l => l)) (Or.inr rfl) [entry0] [entry0] rfl⟩

/-- C3: if the CancellationToken becomes set at a cancellation check the
run has not yet passed, the job ends in `Cancelled` — cleanup happens and
the terminal publication is `Cancelled` — and `Done` is never published;
the checks cover every stage boundary and every translation batch. -/
theorem c3_cancellation_yields_cancelled (env : JobEnv) (t : Nat)
    (hset : env.cancelAt = some t)
    (hlt : t < (jobSteps env.numBatches).length)
    (hok : ∀ i (hi : i < (jobSteps env.numBatches).length), i < t →
      env.stepResult ((jobSteps env.numBatches).get ⟨i, hi⟩) = Except.ok ()) :
    (∃ pre, runJob env = pre ++
        [RunnerAction.cleanup,
         RunnerAction.publish TerminalCommand.processing_cancelled]) ∧
    (∀ f, RunnerAction.publish (TerminalCommand.processing_done f) ∉ runJob env) ∧
    (∀ i, i < env.numBatches → Step.translateBatch i ∈ jobSteps env.numBatches) := by
  refine ⟨?_, ?_, ?_⟩
  · exact runSteps_cancelled env _ 0 t hset (Nat.zero_le t) (by omega)
      (fun i hi h => hok i hi (by omega))
  · exact runSteps_no_done env _ 0 t hset (Nat.zero_le t) (by omega)
  · intro i hi
    simpa [jobSteps, List.mem_append, List.mem_map, List.mem_range] using hi

/-- C4 counterexample: with both a URL field value and a local path
present (exactly the state `_select_local_file` produces) and a valid
target language, `_process_video` does not fail fast with an input
error — it starts the job: the trace contains a `processVideo` call and
no warning.  This refutes the claim that validation requires exactly one
of the two sources and rejects the both-present case. -/
theorem c4_both_sources_counterexample :
    (processVideoHandler uiBoth cfg0 (some "/tmp/clip.mkv")).countP
        AppAction.isProcessVideo = 1 ∧
    (processVideoHandler uiBoth cfg0 (some "/tmp/clip.mkv")).countP
        AppAction.isShowWarning = 0 := by
  constructor <;> decide

/-- C4 (amended): validation requires at least one of source URL or
local path to be present (Python-truthy) and a non-empty target
language; a violation fails fast with a synchronous input warning as the
last action, with no job started and no progress window opened; when the
inputs are valid — including when both a URL and a local path are
present — exactly one job is started and no warning is shown. -/
theorem c4_validation_requires_a_source (ui : UIState) (cfg : Config)
    (vp : Option String) :
    (ui.url_entry = "" ∧ truthy vp = false →
      (processVideoHandler ui cfg vp).countP AppAction.isProcessVideo = 0 ∧
      (processVideoHandler ui cfg vp).countP AppAction.isOpenProgress = 0 ∧
      (processVideoHandler ui cfg vp).getLast? =
        some (AppAction.showWarning WarningReason.missingSource)) ∧
    (¬(ui.url_entry = "" ∧ truthy vp = false) →
      firstField ui.language_combobox = "" →
      (processVideoHandler ui cfg vp).countP AppAction.isProcessVideo = 0 ∧
      (processVideoHandler ui cfg vp).countP AppAction.isOpenProgress = 0 ∧
      (processVideoHandler ui cfg vp).getLast? =
        some (AppAction.showWarning WarningReason.missingLanguage)) ∧
    (¬(ui.url_entry = "" ∧ truthy vp = false) →
      ¬(firstField ui.language_combobox = "") →
      (processVideoHandler ui cfg vp).countP AppAction.isProcessVideo = 1 ∧
      (processVideoHandler ui cfg vp).countP AppAction.isShowWarning = 0) := by
  refine ⟨?_, ?_, ?_⟩
  · intro hc1
    simp only [processVideoHandler]
    rw [if_pos hc1]
    simp [List.countP_append, setupActions_countP_processVideo,
      setupActions_countP_openProgress, List.countP_cons,
      AppAction.isProcessVideo, AppAction.isOpenProgress,
      List.getLast?_concat]
  · intro hc1 hc2
    simp only [processVideoHandler]
    rw [if_neg hc1, if_pos hc2]
    simp [List.countP_append, setupActions_countP_processVideo,
      setupActions_countP_openProgress, List.countP_cons,
      AppAction.isProcessVideo, AppAction.isOpenProgress,
      List.getLast?_concat]
  · intro hc1 hc2
    simp only [processVideoHandler]
    rw [if_neg hc1, if_neg hc2]
    cases hv : truthy vp <;>
      simp [List.countP_append, setupActions_countP_processVideo,
        setupActions_countP_showWarning, List.countP_cons,
        AppAction.isProcessVideo, AppAction.isShowWarning]

/-- C5: calling the handler with neither a URL nor a (truthy) local path
yields an immediate synchronous input warning: no job is started
(`process_video` is never called, so no worker thread and no
CommandChannel message can result from this call) and no progress window
is opened; the warning is the last thing the handler does. -/
theorem c5_no_source_no_job (ui : UIState) (cfg : Config)
    (vp : Option String) (h1 : ui.url_entry = "") (h2 : truthy vp = false) :
    (processVideoHandler ui cfg vp).countP AppAction.isProcessVideo = 0 ∧
    (processVideoHandler ui cfg vp).countP AppAction.isOpenProgress = 0 ∧
    (processVideoHandler ui cfg vp).getLast? =
      some (AppAction.showWarning WarningReason.missingSource) := by
  simp only [processVideoHandler]
  rw [if_pos ⟨h1, h2⟩]
  simp [List.countP_append, setupActions_countP_processVideo,
    setupActions_countP_openProgress, List.countP_cons,
    AppAction.isProcessVideo, AppAction.isOpenProgress, List.getLast?_concat]

/-- Witness for C5: the empty URL entry and no selected file. -/
theorem c5_no_source_no_job_witness :
    uiEmpty.url_entry = "" ∧ truthy none = false ∧
    ((processVideoHandler uiEmpty cfg0 none).countP
        AppAction.isProcessVideo = 0 ∧
     (processVideoHandler uiEmpty cfg0 none).countP
        AppAction.isOpenProgress = 0 ∧
     (processVideoHandler uiEmpty cfg0 none).getLast? =
        some (AppAction.showWarning WarningReason.missingSource)) :=
  ⟨rfl, rfl, c5_no_source_no_job uiEmpty cfg0 none rfl rfl⟩

/-- C6: the GPU flag actually passed to a job equals the requested
checkbox value AND the CUDA availability probe; in particular with CUDA
unavailable the job runs on CPU whatever was requested. -/
theorem c6_effective_gpu_flag (ui : UIState) (cfg : Config)
    (vp : Option String) (u p : Option String) (l s : String) (g : Bool)
    (h : AppAction.processVideo u p l s g ∈ processVideoHandler ui cfg vp) :
    g = (ui.gpu_var && cfg.cudaAvailable) ∧
    (cfg.cudaAvailable = false → g = false) := by
  have hg := (processVideo_mem_spec ui cfg vp u p l s g h).1
  exact ⟨hg, fun hc => by simp [hg, hc]⟩

/-- Witness for C6: GPU requested but CUDA unavailable — the started job
gets `use_gpu = false`. -/
theorem c6_effective_gpu_flag_witness :
    AppAction.processVideo (some "https://host/video.mp4") none "FR" "DeepL"
        false ∈ processVideoHandler uiBoth cfg0 none ∧
    (false = (uiBoth.gpu_var && cfg0.cudaAvailable) ∧
      (cfg0.cudaAvailable = false → false = false)) :=
  ⟨by decide,
    c6_effective_gpu_flag uiBoth cfg0 none (some "https://host/video.mp4")
      none "FR" "DeepL" false (by decide)⟩

/-- C9: every `process_video` call the application makes passes exactly
one non-absent source argument: with a (truthy) local path the call is
`process_video(None, path, ...)`; otherwise it is
`process_video(url, None, ...)` with a non-empty url; in particular when
both a URL field value and a local path exist, the local path is used and
the URL argument is `None`. -/
theorem c9_one_source_argument (ui : UIState) (cfg : Config)
    (vp : Option String) (u p : Option String) (l s : String) (g : Bool)
    (h : AppAction.processVideo u p l s g ∈ processVideoHandler ui cfg vp) :
    ((truthy vp = true ∧ u = none ∧ p = vp) ∨
     (truthy vp = false ∧ u = some ui.url_entry ∧ ui.url_entry ≠ "" ∧
       p = none)) ∧
    ((u = none ∧ p.isSome = true) ∨ (p = none ∧ u.isSome = true)) := by
  have hspec := (processVideo_mem_spec ui cfg vp u p l s g h).2.2.2
  cases hv : truthy vp with
  | true =>
      rw [hv] at hspec
      simp at hspec
      obtain ⟨hu, hp⟩ := hspec
      refine ⟨Or.inl ⟨rfl, hu, hp⟩, Or.inl ⟨hu, ?_⟩⟩
      cases vp with
      | none => rw [truthy] at hv; cases hv
      | some q => simp [hp]
  | false =>
      rw [hv] at hspec
      simp at hspec
      obtain ⟨hu, hurl, hp⟩ := hspec
      exact ⟨Or.inr ⟨rfl, hu, hurl, hp⟩, Or.inr ⟨hp, by simp [hu]⟩⟩

/-- Witness for C9: a URL-only submission. -/
theorem c9_one_source_argument_witness :
    AppAction.processVideo (some "https://host/video.mp4") none "FR" "DeepL"
        false ∈ processVideoHandler uiBoth cfg0 none ∧
    (((truthy (none : Option String) = true ∧
        (some "https://host/video.mp4" : Option String) = none ∧
        (none : Option String) = none) ∨
      (truthy (none : Option String) = false ∧
        (some "https://host/video.mp4" : Option String) =
          some uiBoth.url_entry ∧ uiBoth.url_entry ≠ "" ∧
        (none : Option String) = none)) ∧
     (((some "https://host/video.mp4" : Option String) = none ∧
        (none : Option String).isSome = true) ∨
      ((none : Option String) = none ∧
        (some "https://host/video.mp4" : Option String).isSome = true))) :=
  ⟨by decide,
    c9_one_source_argument uiBoth cfg0 none (some "https://host/video.mp4")
      none "FR" "DeepL" false (by decide)⟩

/-- C7: the consumer dispatches exactly one handler per terminal
command, determined by the `command` tag of the message schema; every
handler closes the progress indicator first; and under the channel
contract of at most one terminal command per job, a Done outcome is
never displayed for a job after (nor alongside) an Error or Cancelled
display for it. -/
theorem c7_terminal_dispatch (cmd : Cmd) (cmds : List Cmd)
    (hcmd : isTerminalTag cmd.command = true)
    (hone : cmds.countP (fun c => isTerminalTag c.command) ≤ 1) :
    (handleCommand cmd).head? = some UIEffect.closeProgress ∧
    (cmd.command = "processing_done" →
      handleCommand cmd =
        [UIEffect.closeProgress, UIEffect.showResultDialog cmd.video_folder]) ∧
    (cmd.command = "processing_cancelled" →
      handleCommand cmd =
        [UIEffect.closeProgress, UIEffect.showCancelledInfo]) ∧
    (cmd.command = "error" →
      handleCommand cmd =
        [UIEffect.closeProgress, UIEffect.showErrorBox cmd.message]) ∧
    ((consumerRun cmds).any UIEffect.isShowResult = true →
      (consumerRun cmds).all
        (fun e => !(e.isShowCancelled || e.isShowError)) = true) := by
  have htags : cmd.command = "processing_done" ∨
      cmd.command = "processing_cancelled" ∨ cmd.command = "error" := by
    rw [isTerminalTag] at hcmd
    simp at hcmd
    tauto
  refine ⟨?_, ?_, ?_, ?_, ?_⟩
  · rcases htags with ht | ht | ht <;> simp [handleCommand, ht]
  · intro ht; simp [handleCommand, ht]
  · intro ht; simp [handleCommand, ht]
  · intro ht; simp [handleCommand, ht]
  · exact consumerRun_done_excludes cmds hone

/-- Witness for C7: a lone `processing_done` command. -/
theorem c7_terminal_dispatch_witness :
    isTerminalTag cmdDone.command = true ∧
    [cmdDone].countP (fun c => isTerminalTag c.command) ≤ 1 ∧
    ((handleCommand cmdDone).head? = some UIEffect.closeProgress ∧
     (cmdDone.command = "processing_done" →
       handleCommand cmdDone =
         [UIEffect.closeProgress,
          UIEffect.showResultDialog cmdDone.video_folder]) ∧
     (cmdDone.command = "processing_cancelled" →
       handleCommand cmdDone =
         [UIEffect.closeProgress, UIEffect.showCancelledInfo]) ∧
     (cmdDone.command = "error" →
       handleCommand cmdDone =
         [UIEffect.closeProgress, UIEffect.showErrorBox cmdDone.message]) ∧
     ((consumerRun [cmdDone]).any UIEffect.isShowResult = true →
       (consumerRun [cmdDone]).all
         (fun e => !(e.isShowCancelled || e.isShowError)) = true)) :=
  ⟨by decide, by decide, c7_terminal_dispatch cmdDone [cmdDone] (by decide) (by decide)⟩

/-- C8: on every submission the consumer first writes the entered API
keys into the process-wide config and persists them, then calls
`update_api_client` — which re-snapshots the credentials and model
configuration from the current config — and only afterwards calls
`process_video`: the trace splits around `updateApiClient` with the key
writes before it, every job start after it, and the processor snapshot at
that point holding exactly the entered keys (the full current config). -/
theorem c8_update_api_client_before_job (ui : UIState) (cfg : Config)
    (vp : Option String) (snap0 : Config) :
    ∃ A B, processVideoHandler ui cfg vp =
        A ++ AppAction.updateApiClient :: B ∧
      AppAction.setConfigKeys ui.deepl_key_entry ui.openai_key_entry ∈ A ∧
      AppAction.saveApiKeys ∈ A ∧
      (∀ a ∈ A, a.isProcessVideo = false) ∧
      (replay { cfg := cfg, snapshot := snap0 }
          (A ++ [AppAction.updateApiClient])).snapshot.deepl_key =
        ui.deepl_key_entry ∧
      (replay { cfg := cfg, snapshot := snap0 }
          (A ++ [AppAction.updateApiClient])).snapshot.openai_key =
        ui.openai_key_entry ∧
      (replay { cfg := cfg, snapshot := snap0 }
          (A ++ [AppAction.updateApiClient])).snapshot =
        (replay { cfg := cfg, snapshot := snap0 }
          (A ++ [AppAction.updateApiClient])).cfg := by
  obtain ⟨rest, hr⟩ := handler_setup_prefix ui cfg vp
  by_cases hw : ui.whisper_model_combobox = ""
  · refine ⟨[AppAction.setConfigKeys ui.deepl_key_entry ui.openai_key_entry,
      AppAction.saveApiKeys], rest, ?_, by simp, by simp, ?_, rfl, rfl, rfl⟩
    · rw [hr]
      simp [setupActions, hw]
    · intro a ha
      simp at ha
      rcases ha with rfl | rfl <;> rfl
  · refine ⟨[AppAction.setConfigKeys ui.deepl_key_entry ui.openai_key_entry,
      AppAction.saveApiKeys, AppAction.setWhisperModel ui.whisper_model_combobox,
      AppAction.saveConfig], rest, ?_, by simp, by simp, ?_, rfl, rfl, rfl⟩
    · rw [hr]
      simp [setupActions, hw]
    · intro a ha
      simp at ha
      rcases ha with rfl | rfl | rfl | rfl <;> rfl

/-- C10: the command listener never blocks and never terminates — every
poll ends by rescheduling itself (after 100 ms, or 1000 ms when a
handler raised); an empty queue leaves the consumer state unchanged; the
polled command is dequeued whether or not its handler raises, so after
as many polls as there are pending commands the queue is drained and
exactly the non-raising commands have contributed their effects — a
failing command cannot prevent later commands from being processed. -/
theorem c10_listener_never_blocks (raises : Cmd → Bool)
    (st : ListenerState) :
    ((checkCommands raises st).2 = 100 ∨
      (checkCommands raises st).2 = 1000) ∧
    (st.pending = [] → checkCommands raises st = (st, 100)) ∧
    (∀ c rest, st.pending = c :: rest →
      (checkCommands raises st).1.pending = rest) ∧
    (pollMany raises st st.pending.length).pending = [] ∧
    (pollMany raises st st.pending.length).effects =
      st.effects ++ consumerRun (st.pending.filter (fun c => !raises c)) := by
  obtain ⟨l, effs⟩ := st
  refine ⟨?_, ?_, ?_, ?_, ?_⟩
  · cases l with
    | nil => simp [checkCommands]
    | cons c rest => by_cases hr : raises c <;> simp [checkCommands, hr]
  · intro hp
    simp only at hp
    subst hp
    rfl
  · intro c rest hp
    simp only at hp
    subst hp
    by_cases hr : raises c <;> simp [checkCommands, hr]
  · rw [show ({ pending := l, effects := effs } : ListenerState).pending = l
      from rfl, pollMany_drain]
  · rw [show ({ pending := l, effects := effs } : ListenerState).pending = l
      from rfl, pollMany_drain]

/-- Witness for C3 at a concrete job cancelled at the second check. -/
theorem c3_cancellation_yields_cancelled_witness :
    envCancel.cancelAt = some 1 ∧
    1 < (jobSteps envCancel.numBatches).length ∧
    ((∃ pre, runJob envCancel = pre ++
        [RunnerAction.cleanup,
         RunnerAction.publish TerminalCommand.processing_cancelled]) ∧
     (∀ f, RunnerAction.publish (TerminalCommand.processing_done f) ∉
        runJob envCancel) ∧
     (∀ i, i < envCancel.numBatches →
        Step.translateBatch i ∈ jobSteps envCancel.numBatches)) :=
  ⟨rfl, by decide,
    c3_cancellation_yields_cancelled envCancel 1 rfl (by decide)
      (fun i hi h => rfl)⟩

end SubGen
